import Mathlib

/-!
Verification development for the EmotionFusion application
(`streamlit_App.py`): a face-based emotion annotation pipeline with three
modal drivers (still image, video file, live camera).  The definitions
below are a shallow embedding of the pipeline functions and driver loops;
numpy / OpenCV / Python library calls are modelled by their documented
semantics (noted at each definition).  Machine floats are modelled by ℚ;
a Python float division by zero that raises no exception (numpy array
division, which yields NaN) is modelled by rational division, where
division by zero yields 0.
-/

namespace EmotionFusion

/-- Fixed label order of the model output, from `emotion_labels`
(line 87, capitalized variant used by the image annotation path). -/
def emotion_labels : List String :=
  ["Angry", "Contempt", "Disgust", "Fear", "Happy", "Neutral", "Sad", "Surprise"]

/-- Lowercase label list rebound at line 390, in effect for the live path. -/
def emotion_labels_live : List String :=
  ["angry", "contempt", "disgust", "fear", "happy", "neutral", "sad", "surprise"]

/-- The `emotion_scaling` dict (lines 93-102 and 393-402): every one of the
eight lowercase keys maps to the weight 1.0; any other key is absent
(a Python `KeyError`), modelled by `none`. -/
def emotion_scaling_table (key : String) : Option ℚ :=
  if key ∈ emotion_labels_live then some 1 else none

/-- Model of `np.max` on a one-dimensional array: the greatest element
(fold of `max` over the list; 0 on the empty array, which numpy rejects). -/
def npMax : List ℚ → ℚ
  | [] => 0
  | v :: rest => rest.foldl max v

/-- Model of `np.argmax` on a one-dimensional array: the index of the first
occurrence of the maximum value (numpy documents the first-occurrence
tie-break). -/
def npArgmax (l : List ℚ) : ℕ :=
  l.findIdx (fun v => decide (v = npMax l))

/-- Per-face decision of `detect_and_annotate_faces` (lines 149-160): the
label is the argmax label from `predict_emotion`, the confidence is
`np.max(confidence_scores)`, and a confidence below the hardcoded
threshold 0.3 downgrades the label to "Unknown" while the numeric
confidence is kept and drawn next to the label. -/
def detectDecision (scores : List ℚ) : String × ℚ :=
  let emotion := emotion_labels.getD (npArgmax scores) ""
  let confidence := npMax scores
  if confidence < 3 / 10 then ("Unknown", confidence) else (emotion, confidence)

/-- Per-face annotation of the live loop `run_emotion_detection`
(lines 446-454): label = argmax over the adjusted predictions, confidence
= max; the rectangle and the text `label (confidence)` are drawn only when
`confidence > 0.6`, otherwise the face receives no annotation at all
(`none`). -/
def liveAnnotate (scores : List ℚ) : Option (String × ℚ) :=
  let emotion := emotion_labels_live.getD (npArgmax scores) ""
  let confidence := npMax scores
  if 6 / 10 < confidence then some (emotion, confidence) else none

/-- Scaling step of `predict_emotion` (line 119): each raw score is
multiplied by `emotion_scaling[emotion_labels[i].lower()]`; the missing-key
case (which cannot happen for the eight fixed labels) is modelled as 0. -/
def scaled_predictions (preds : List ℚ) : List ℚ :=
  (preds.zip emotion_labels).map
    (fun p => p.1 * (emotion_scaling_table p.2.toLower).getD 0)

/-- Normalization step shared by `predict_emotion` (line 120) and
`adjust_predictions` (line 417): the vector is divided elementwise by its
sum, with no guard whatsoever against a zero sum.  numpy raises no
exception on `x / 0.0` for arrays (it yields NaN); the model likewise
returns a value, with rational division by zero yielding 0. -/
def normalizeBySum (l : List ℚ) : List ℚ :=
  l.map (fun v => v / l.sum)

/-- `predict_emotion` of the image path (lines 114-121), restricted to the
score vector it produces: scale, then divide by the (unguarded) sum. -/
def predict_emotion_scores (preds : List ℚ) : List ℚ :=
  normalizeBySum (scaled_predictions preds)

/-- `adjust_predictions` of the live path (lines 414-418): same scaling by
the all-ones table over the lowercase labels, then the same unguarded
division of the vector by its sum. -/
def adjust_predictions (preds : List ℚ) : List ℚ :=
  normalizeBySum
    ((preds.zip emotion_labels_live).map
      (fun p => p.1 * (emotion_scaling_table p.2).getD 0))

/-- Sanity example: the decision on a confident Happy distribution, the
second worked example of the Decision Policy section of the spec. -/
example :
    detectDecision [1/100, 1/100, 1/100, 1/100, 3/4, 7/100, 7/100, 7/100]
      = ("Happy", 3/4) := by
  norm_num [detectDecision, npArgmax, npMax, emotion_labels,
    List.findIdx, List.findIdx.go]

/-- Sanity example: the first worked example of the Decision Policy section
of the spec, a distribution whose maximum 0.25 lies below the image
threshold 0.3. -/
example :
    detectDecision [1/4, 3/28, 3/28, 3/28, 3/28, 3/28, 3/28, 3/28]
      = ("Unknown", 1/4) := by
  norm_num [detectDecision, npArgmax, npMax, emotion_labels,
    List.findIdx, List.findIdx.go]

/-- The initial accumulator of a `max` fold is below the fold result. -/
theorem le_foldl_max (l : List ℚ) (a : ℚ) : a ≤ l.foldl max a := by
  induction l generalizing a with
  | nil => exact le_refl a
  | cons v t ih =>
    rw [List.foldl_cons]
    exact le_trans (le_max_left a v) (ih (max a v))

/-- Every member of the list is below the result of a `max` fold. -/
theorem mem_le_foldl_max (l : List ℚ) (a x : ℚ) (hx : x ∈ l) :
    x ≤ l.foldl max a := by
  induction l generalizing a with
  | nil => cases hx
  | cons v t ih =>
    rw [List.foldl_cons]
    rcases List.mem_cons.mp hx with h | h
    · subst h
      exact le_trans (le_max_right a x) (le_foldl_max t (max a x))
    · exact ih (max a v) h

/-- The result of a `max` fold is the accumulator or a member of the list. -/
theorem foldl_max_mem (l : List ℚ) (a : ℚ) :
    l.foldl max a = a ∨ l.foldl max a ∈ l := by
  induction l generalizing a with
  | nil => exact Or.inl rfl
  | cons v t ih =>
    rw [List.foldl_cons]
    rcases ih (max a v) with h | h
    · rcases max_choice a v with hm | hm
      · exact Or.inl (by rw [h, hm])
      · exact Or.inr (by rw [h, hm]; exact List.mem_cons_self v t)
    · exact Or.inr (List.mem_cons_of_mem v h)

/-- On a nonempty list, `npMax` returns one of the list elements. -/
theorem npMax_mem (l : List ℚ) (h : l ≠ []) : npMax l ∈ l := by
  cases l with
  | nil => exact absurd rfl h
  | cons v t =>
    show t.foldl max v ∈ v :: t
    rcases foldl_max_mem t v with h1 | h1
    · rw [h1]; exact List.mem_cons_self v t
    · exact List.mem_cons_of_mem v h1

/-- `npMax` is an upper bound of the list. -/
theorem le_npMax (l : List ℚ) (x : ℚ) (hx : x ∈ l) : x ≤ npMax l := by
  cases l with
  | nil => cases hx
  | cons v t =>
    show x ≤ t.foldl max v
    rcases List.mem_cons.mp hx with h | h
    · subst h; exact le_foldl_max t x
    · exact mem_le_foldl_max t v x h

/-- On a nonempty list, `npArgmax` is a valid index. -/
theorem npArgmax_lt_length (l : List ℚ) (h : l ≠ []) :
    npArgmax l < l.length :=
  List.findIdx_lt_length_of_exists
    ⟨npMax l, npMax_mem l h, by simp⟩

/-- The value at the `npArgmax` index is the maximum of the list. -/
theorem getD_npArgmax (l : List ℚ) (h : l ≠ []) :
    l.getD (npArgmax l) 0 = npMax l := by
  have hlt : npArgmax l < l.length := npArgmax_lt_length l h
  have hp := List.findIdx_getElem (p := fun v => decide (v = npMax l))
    (w := hlt)
  have : l[npArgmax l] = npMax l := by simpa using hp
  rw [List.getD_eq_getElem l 0 hlt, this]

/-- First-occurrence tie-break of `np.argmax`: every index strictly before
`npArgmax` holds a value strictly below the maximum. -/
theorem lt_npMax_of_lt_npArgmax (l : List ℚ) (j : ℕ) (hj : j < npArgmax l) :
    l.getD j 0 < npMax l := by
  have hlen : j < l.length :=
    lt_of_lt_of_le hj (List.findIdx_le_length _)
  have hfalse := List.not_of_lt_findIdx
    (p := fun v => decide (v = npMax l)) hj
  have hne : l[j] ≠ npMax l := by simpa using hfalse
  have hle : l[j] ≤ npMax l := le_npMax l _ (List.getElem_mem hlen)
  rw [List.getD_eq_getElem l 0 hlen]
  exact lt_of_le_of_ne hle hne

/-- Concrete distribution: maximum 0.25 at index 0, below both thresholds. -/
def lowConfidenceScores : List ℚ :=
  [1/4, 3/28, 3/28, 3/28, 3/28, 3/28, 3/28, 3/28]

/-- Concrete distribution: maximum 0.75 at index 4 (Happy). -/
def happyScores : List ℚ :=
  [1/100, 1/100, 1/100, 1/100, 3/4, 7/100, 7/100, 7/100]

/-- C1 counterexample: in the live driver (threshold 0.6), a face whose
distribution has maximum 0.25 — below the threshold — is not annotated at
all: no "Unknown" label and no numeric confidence are drawn, contradicting
the claim that the downgraded label is reported alongside the confidence
for every threshold. -/
theorem live_below_threshold_unannotated :
    npMax lowConfidenceScores = 1/4 ∧ ((1:ℚ)/4 < 6/10) ∧
    liveAnnotate lowConfidenceScores = none := by
  refine ⟨?_, by norm_num, ?_⟩ <;>
    norm_num [lowConfidenceScores, liveAnnotate, npMax]

/-- C1 (amended): for every nonempty score list, the argmax index holds the
maximum value and every earlier index holds a strictly smaller value
(first-index tie-break); the image annotation path (threshold 0.3) reports
the pair `(label, confidence)` with the label downgraded to "Unknown" below
the threshold and the numeric confidence unchanged in both cases; the live
path (threshold 0.6) instead reports the argmax label with its confidence
only when the confidence exceeds 0.6 and reports nothing at all otherwise
(no "Unknown" downgrade exists there). -/
theorem decision_policy (scores : List ℚ) (h : scores ≠ []) :
    scores.getD (npArgmax scores) 0 = npMax scores ∧
    (∀ j, j < npArgmax scores → scores.getD j 0 < npMax scores) ∧
    detectDecision scores =
      (if npMax scores < 3 / 10 then "Unknown"
       else emotion_labels.getD (npArgmax scores) "", npMax scores) ∧
    liveAnnotate scores =
      (if 6 / 10 < npMax scores
       then some (emotion_labels_live.getD (npArgmax scores) "", npMax scores)
       else none) := by
  refine ⟨getD_npArgmax scores h,
    fun j hj => lt_npMax_of_lt_npArgmax scores j hj, ?_, ?_⟩
  · by_cases hc : npMax scores < 3 / 10 <;> simp [detectDecision, hc]
  · by_cases hc : 6 / 10 < npMax scores <;> simp [liveAnnotate, hc]

/-- Witness for the amended C1 theorem at the concrete Happy distribution. -/
theorem decision_policy_witness :
    happyScores.getD (npArgmax happyScores) 0 = npMax happyScores ∧
    (∀ j, j < npArgmax happyScores →
      happyScores.getD j 0 < npMax happyScores) ∧
    detectDecision happyScores =
      (if npMax happyScores < 3 / 10 then "Unknown"
       else emotion_labels.getD (npArgmax happyScores) "", npMax happyScores) ∧
    liveAnnotate happyScores =
      (if 6 / 10 < npMax happyScores
       then some (emotion_labels_live.getD (npArgmax happyScores) "",
                  npMax happyScores)
       else none) :=
  decision_policy happyScores (by decide)

/-- All-zero raw classifier output, the degenerate case of C2. -/
def allZeroScores : List ℚ := [0, 0, 0, 0, 0, 0, 0, 0]

/-- C2: evaluation of the two classifier adapters at the all-zero score
vector.  Neither `predict_emotion` (line 120) nor `adjust_predictions`
(line 417) guards the division by `sum`; with a zero sum the call raises
no error and silently passes the degenerate vector through (numpy yields
NaNs without an exception; in the rational model division by zero yields
zero), so the output does not even sum to 1. -/
theorem allzero_scores_silently_passed :
    predict_emotion_scores allZeroScores = allZeroScores ∧
    (predict_emotion_scores allZeroScores).sum = 0 ∧
    adjust_predictions allZeroScores = allZeroScores := by
  refine ⟨?_, ?_, ?_⟩ <;>
    simp [predict_emotion_scores, adjust_predictions, allZeroScores,
      normalizeBySum, scaled_predictions, emotion_labels, emotion_labels_live,
      List.zip_cons_cons]

/-- A detector bounding box `{x, y, width, height}` as unpacked from
`face["box"]`; MTCNN can return slightly negative corner coordinates, so
all four fields are integers. -/
structure FaceBox where
  x : ℤ
  y : ℤ
  w : ℤ
  h : ℤ
  deriving DecidableEq, Repr

/-- The bounding-box adjustment of the video frame loop (line 337):
`x, y, width, height = max(0, x), max(0, y), min(frame.shape[1], width),
min(frame.shape[0], height)` where `frame.shape[1]` is the frame width `W`
and `frame.shape[0]` is the frame height `H`. -/
def clipBox (W H : ℤ) (b : FaceBox) : FaceBox :=
  ⟨max 0 b.x, max 0 b.y, min W b.w, min H b.h⟩

/-- Python slice index normalization for a sequence of length `n`:
a negative index counts from the end, then the index is clamped into
`[0, n]`. -/
def pySliceNorm (n i : ℤ) : ℤ :=
  if i < 0 then max 0 (n + i) else min n i

/-- Number of elements selected by the Python slice `a:b` from a sequence
of length `n`. -/
def pySliceLen (n a b : ℤ) : ℤ :=
  max 0 (pySliceNorm n b - pySliceNorm n a)

/-- Row count of the numpy crop `frame[y:y+h, x:x+w]` on an `H`-row frame. -/
def roiRows (H : ℤ) (b : FaceBox) : ℤ := pySliceLen H b.y (b.y + b.h)

/-- Column count of the numpy crop `frame[y:y+h, x:x+w]` on a `W`-column
frame. -/
def roiCols (W : ℤ) (b : FaceBox) : ℤ := pySliceLen W b.x (b.x + b.w)

/-- Element count (`roi.size`, up to the constant channel factor) of the
crop `frame[y:y+h, x:x+w]`. -/
def roiSize (H W : ℤ) (b : FaceBox) : ℤ := roiRows H b * roiCols W b

/-- Image path, per face (lines 144-149): the ROI is cropped from the raw
detector box and `predict_emotion` — hence the ROI preprocessor — is
invoked unconditionally; the result is the size of the ROI handed to
preprocessing (`none` would mean the face was skipped). -/
def imageRoiToPreproc (H W : ℤ) (b : FaceBox) : Option ℤ :=
  some (roiSize H W b)

/-- Live path, per face (lines 442-446): same unconditional invocation on
the crop of the raw detector box. -/
def liveRoiToPreproc (H W : ℤ) (b : FaceBox) : Option ℤ :=
  some (roiSize H W b)

/-- Video path, per face (lines 337-345): the box is first clipped, the
ROI is cropped from the clipped box, and `predict_emotion` is invoked only
under the guard `roi.size > 0`. -/
def videoRoiToPreproc (H W : ℤ) (b : FaceBox) : Option ℤ :=
  let c := clipBox W H b
  if 0 < roiSize H W c then some (roiSize H W c) else none

/-- Frame loop of the Video Annotation driver (lines 323-356) over the
readable frames of the capture, each given as `(frame id, detected
faces)`, threaded with the already-written frame ids and the running
`frame_count`.  A frame with zero faces triggers `continue` (line 331),
skipping both `out.write(frame)` and the progress update.  Otherwise the
frame is written and `frame_count` incremented, and the progress update
divides by `total_frames` with no guard: with `total_frames = 0` Python
raises `ZeroDivisionError` (line 354), aborting the run. -/
def videoLoop (totalFrames : ℕ) :
    List (ℕ × List FaceBox) → List ℕ → ℕ → Except String (List ℕ × ℕ)
  | [], written, frameCount => Except.ok (written, frameCount)
  | (fid, faces) :: rest, written, frameCount =>
    if faces.isEmpty then
      videoLoop totalFrames rest written frameCount
    else
      if totalFrames = 0 then Except.error "ZeroDivisionError"
      else videoLoop totalFrames rest (written ++ [fid]) (frameCount + 1)

/-- With a nonzero reported total frame count the loop never aborts and
writes exactly the frames on which at least one face was detected, in
order, counting them in `frame_count`. -/
theorem videoLoop_pos_total (t : ℕ) (ht : t ≠ 0) :
    ∀ (frames : List (ℕ × List FaceBox)) (written : List ℕ) (fc : ℕ),
    videoLoop t frames written fc =
      Except.ok
        (written ++ (frames.filter (fun p => !p.2.isEmpty)).map Prod.fst,
         fc + (frames.filter (fun p => !p.2.isEmpty)).length) := by
  intro frames
  induction frames with
  | nil => intro written fc; simp [videoLoop]
  | cons f rest ih =>
    intro written fc
    obtain ⟨fid, faces⟩ := f
    by_cases hf : faces.isEmpty
    · simp [videoLoop, hf, ih]
    · simp only [videoLoop, hf, if_neg, Bool.not_false, ht, if_false,
        List.filter_cons, ih]
      simp [hf, List.append_assoc, Nat.add_comm, Nat.add_assoc]

/-- If every readable frame has zero detected faces, the loop completes
without writing anything, even with a zero total frame count. -/
theorem videoLoop_all_empty (t : ℕ) :
    ∀ (frames : List (ℕ × List FaceBox)) (written : List ℕ) (fc : ℕ),
    (∀ p ∈ frames, p.2 = []) →
    videoLoop t frames written fc = Except.ok (written, fc) := by
  intro frames
  induction frames with
  | nil => intro written fc _; simp [videoLoop]
  | cons f rest ih =>
    intro written fc hall
    obtain ⟨fid, faces⟩ := f
    have hf : faces = [] := hall (fid, faces) (List.mem_cons_self _ _)
    simp [videoLoop, hf]
    exact ih written fc (fun p hp => hall p (List.mem_cons_of_mem _ hp))

/-- With a zero total frame count, the loop aborts with `ZeroDivisionError`
as soon as it meets a frame with at least one detected face. -/
theorem videoLoop_zero_total_error :
    ∀ (frames : List (ℕ × List FaceBox)) (written : List ℕ) (fc : ℕ),
    (∃ p ∈ frames, p.2 ≠ []) →
    videoLoop 0 frames written fc = Except.error "ZeroDivisionError" := by
  intro frames
  induction frames with
  | nil => intro written fc hex; simp at hex
  | cons f rest ih =>
    intro written fc hex
    obtain ⟨fid, faces⟩ := f
    by_cases hf : faces.isEmpty
    · have hfe : faces = [] := List.isEmpty_iff.mp hf
      simp [videoLoop, hf]
      apply ih
      rcases hex with ⟨p, hp, hne⟩
      rcases List.mem_cons.mp hp with h | h
      · exact absurd (by rw [h]; exact hfe) hne
      · exact ⟨p, h, hne⟩
    · simp [videoLoop, hf]

/-- C3 counterexample: a two-frame video processed with a nonzero total
frame count; frame 0 has zero detected faces and frame 1 has one face.
The output contains only frame 1: the zero-face frame was read but
dropped from the output by `continue`, not written unannotated. -/
theorem video_no_face_frame_dropped :
    videoLoop 2 [(0, []), (1, [⟨1, 1, 2, 2⟩])] [] 0 = Except.ok ([1], 1) := by
  simp [videoLoop]

/-- C3 (amended): for every nonzero reported total frame count, the video
frame loop drops every frame on which the detector finds zero faces
(`continue` skips `out.write`) and writes exactly the frames with at
least one detected face, in source order. -/
theorem video_writes_only_faced_frames (t : ℕ) (ht : t ≠ 0)
    (frames : List (ℕ × List FaceBox)) :
    videoLoop t frames [] 0 =
      Except.ok
        ((frames.filter (fun p => !p.2.isEmpty)).map Prod.fst,
         (frames.filter (fun p => !p.2.isEmpty)).length) := by
  simpa using videoLoop_pos_total t ht frames [] 0

/-- Witness for the amended C3 theorem on a concrete two-frame video. -/
theorem video_writes_only_faced_frames_witness :
    videoLoop 3 [(5, [FaceBox.mk 0 0 3 3]), (6, [])] [] 0 =
      Except.ok
        ((([(5, [FaceBox.mk 0 0 3 3]), (6, [])].filter
            (fun p => !p.2.isEmpty)).map Prod.fst),
         ([(5, [FaceBox.mk 0 0 3 3]), (6, [])].filter
            (fun p => !p.2.isEmpty)).length) :=
  video_writes_only_faced_frames 3 (by decide) _

/-- A detector box extending 5 pixels past the right and bottom edges of a
10 by 10 frame. -/
def wideBox : FaceBox := ⟨5, 5, 10, 10⟩

/-- C4: the clipping formula of line 337 clamps `width` to the frame width
instead of to the remaining width `W - x` (and likewise for the height),
so the box `(5, 5, 10, 10)` on a 10 by 10 frame passes through clipping
unchanged and violates the claimed invariant `x + width ≤ W` (and
`y + height ≤ H`): the code contradicts its own comment that it ensures
the bounding box lies within the frame boundaries. -/
theorem clip_box_exceeds_frame :
    clipBox 10 10 wideBox = wideBox ∧
    (clipBox 10 10 wideBox).x + (clipBox 10 10 wideBox).w = 15 ∧
    ¬((clipBox 10 10 wideBox).x + (clipBox 10 10 wideBox).w ≤ 10) ∧
    ¬((clipBox 10 10 wideBox).y + (clipBox 10 10 wideBox).h ≤ 10) := by
  refine ⟨?_, ?_, ?_, ?_⟩ <;> simp [clipBox, wideBox]

/-- A detector box whose crop against a 10 by 10 frame is empty: it starts
at row 20, below the bottom edge. -/
def offFrameBox : FaceBox := ⟨0, 20, 5, 5⟩

/-- C7 counterexample: on a 10 by 10 frame, the box starting at row 20
crops to a zero-area ROI, yet both the image path and the live path still
invoke the ROI preprocessor on it (no `roi.size` guard exists outside the
video loop). -/
theorem image_preproc_on_zero_area :
    roiSize 10 10 offFrameBox = 0 ∧
    imageRoiToPreproc 10 10 offFrameBox = some 0 ∧
    liveRoiToPreproc 10 10 offFrameBox = some 0 := by
  refine ⟨?_, ?_, ?_⟩ <;>
    simp [imageRoiToPreproc, liveRoiToPreproc, roiSize, roiRows, roiCols,
      pySliceLen, pySliceNorm, offFrameBox]

/-- C7 (amended): only the video driver guards against zero-area ROIs —
it skips the face exactly when the crop of the clipped box has no
positive size — while the image and live drivers invoke the ROI
preprocessor unconditionally on every detected face, zero-area crop or
not. -/
theorem zero_area_roi_skipped_only_in_video (H W : ℤ) (b : FaceBox) :
    imageRoiToPreproc H W b = some (roiSize H W b) ∧
    liveRoiToPreproc H W b = some (roiSize H W b) ∧
    (videoRoiToPreproc H W b = none ↔ roiSize H W (clipBox W H b) ≤ 0) := by
  refine ⟨rfl, rfl, ?_⟩
  by_cases hs : 0 < roiSize H W (clipBox W H b)
  · simp [videoRoiToPreproc, hs]
  · simp [videoRoiToPreproc, hs]; omega

/-- Witness for the amended C7 theorem on a concrete in-frame box. -/
theorem zero_area_roi_skipped_only_in_video_witness :
    imageRoiToPreproc 10 10 ⟨2, 3, 4, 5⟩ = some (roiSize 10 10 ⟨2, 3, 4, 5⟩) ∧
    liveRoiToPreproc 10 10 ⟨2, 3, 4, 5⟩ = some (roiSize 10 10 ⟨2, 3, 4, 5⟩) ∧
    (videoRoiToPreproc 10 10 ⟨2, 3, 4, 5⟩ = none ↔
      roiSize 10 10 (clipBox 10 10 ⟨2, 3, 4, 5⟩) ≤ 0) :=
  zero_area_roi_skipped_only_in_video 10 10 ⟨2, 3, 4, 5⟩

/-- C10 counterexample: a video that opens, reports a total frame count of
zero and yields one readable frame on which zero faces are detected: the
`continue` path skips the progress update, no division happens and the
run completes instead of failing. -/
theorem video_zero_total_can_succeed :
    videoLoop 0 [(0, [])] [] 0 = Except.ok ([], 0) ∧
    [((0 : ℕ), ([] : List FaceBox))].length = 1 := by
  constructor
  · simp [videoLoop]
  · rfl

/-- C10 (amended): with a reported total frame count of zero, the
unguarded progress division makes the run fail if and only if some
readable frame carries at least one detected face; a run whose readable
frames all have zero faces skips the progress update via `continue` every
time and completes normally. -/
theorem video_zero_total_fails_iff (frames : List (ℕ × List FaceBox)) :
    videoLoop 0 frames [] 0 = Except.error "ZeroDivisionError" ↔
      ∃ p ∈ frames, p.2 ≠ [] := by
  constructor
  · intro herr
    by_contra hno
    push_neg at hno
    rw [videoLoop_all_empty 0 frames [] 0 hno] at herr
    cases herr
  · exact videoLoop_zero_total_error frames [] 0

/-- Witness for the amended C10 theorem on a concrete one-frame video. -/
theorem video_zero_total_fails_iff_witness :
    videoLoop 0 [(4, [FaceBox.mk 1 1 2 2])] [] 0 =
        Except.error "ZeroDivisionError" ↔
      ∃ p ∈ [((4 : ℕ), [FaceBox.mk 1 1 2 2])], p.2 ≠ [] :=
  video_zero_total_fails_iff [(4, [FaceBox.mk 1 1 2 2])]

/-- On-disk existence of the two temporary files of a video run
(`temp_video.mp4` and `annotated_video.mp4`). -/
structure TempFiles where
  inputExists : Bool
  outputExists : Bool
  deriving DecidableEq, Repr

/-- Video Annotation driver (lines 293-371): the uploaded bytes are
written to the temporary input path (lines 294-296), the writer creates
the temporary output path (lines 311-312), the frame loop runs, and only
on the straight-line success path are `os.remove(video_path)` and
`os.remove(output_path)` executed (lines 367-368).  Nothing is wrapped in
try/finally, so an exception raised inside the loop (for example the
unguarded `ZeroDivisionError` of line 354) propagates and the two removal
statements never run.  The result is the final on-disk state together
with the propagated error, if any. -/
def videoDriver (totalFrames : ℕ) (frames : List (ℕ × List FaceBox)) :
    TempFiles × Option String :=
  match videoLoop totalFrames frames [] 0 with
  | Except.error e => (⟨true, true⟩, some e)
  | Except.ok _ => (⟨false, false⟩, none)

/-- C5 counterexample: a concrete video run that aborts mid-run (zero
reported total frames, one frame with a face, hence `ZeroDivisionError`)
leaves both temporary files on disk, contradicting the claim that cleanup
occurs on the abort path as well. -/
theorem temp_files_leak_on_failure :
    videoDriver 0 [(0, [FaceBox.mk 1 1 2 2])] =
      (⟨true, true⟩, some "ZeroDivisionError") := by
  simp [videoDriver, videoLoop]

/-- C5 (amended): temporary-file cleanup happens only on the success
path.  Every video run either completes with both temporary files removed,
or aborts mid-run with both temporary files still existing on disk. -/
theorem temp_files_cleanup_only_on_success (t : ℕ)
    (frames : List (ℕ × List FaceBox)) :
    videoDriver t frames = (⟨false, false⟩, none) ∨
    ∃ e, videoDriver t frames = (⟨true, true⟩, some e) := by
  cases hv : videoLoop t frames [] 0 with
  | error e => exact Or.inr ⟨e, by simp [videoDriver, hv]⟩
  | ok r => exact Or.inl (by simp [videoDriver, hv])

/-- Result of `np.mean(confidence_scores, axis=0)` (line 166): on a
nonempty list of 8-vectors the array has shape `(n, 8)` and the reduction
returns the per-class mean vector of shape `(8,)`; on the empty input the
array has shape `(0,)` and reducing over its only axis yields a scalar
NaN (with a RuntimeWarning), not a vector. -/
inductive NpMeanResult
  | vec (means : List ℚ)
  | scalarNaN
  deriving DecidableEq, Repr

/-- Model of `np.mean(rows, axis=0)` as used at line 166, distinguishing
the vector result on nonempty input from the scalar NaN on empty input. -/
def npMeanAxis0 (rows : List (List ℚ)) : NpMeanResult :=
  if rows.isEmpty then NpMeanResult.scalarNaN
  else
    NpMeanResult.vec
      ((List.range 8).map
        (fun i => (rows.map (fun r => r.getD i 0)).sum / (rows.length : ℚ)))

/-- `plot_confidence_chart` (lines 165-179): computes the per-class mean,
then builds `go.Bar(x=emotion_labels, y=avg_confidence)` (lines 168-169).
The `y` property of a bar trace accepts only data arrays, so when the
empty input makes `avg_confidence` the scalar NaN, plotly's validator
raises a `ValueError` inside the function; on nonempty input the figure
is built and returned (its bar heights, here). -/
def plot_confidence_chart (rows : List (List ℚ)) : Except String (List ℚ) :=
  match npMeanAxis0 rows with
  | NpMeanResult.scalarNaN => Except.error "ValueError"
  | NpMeanResult.vec means => Except.ok means

/-- The user-visible steps emitted by the image annotation page, in
program order. -/
inductive UIStep
  | warnNoFaces
  | showOriginal
  | showAnnotated
  | plotChart (chart : List ℚ)
  | offerDownload
  deriving DecidableEq, Repr

/-- `detect_and_annotate_faces` (lines 136-162) restricted to its score
bookkeeping: given the per-face classifier outputs, it returns the
collected `all_confidence_scores` together with whether the no-faces
warning fired (the function returns `(image, [])` early when the detector
finds no face). -/
def detect_and_annotate_scores (faceScores : List (List ℚ)) :
    List (List ℚ) × Bool :=
  if faceScores.isEmpty then ([], true) else (faceScores, false)

/-- The image annotation page after a successful upload (lines 197-223):
show the original image, run detection (the warning fires inside it on
zero faces), show the annotated image, then call `plot_confidence_chart`
on the collected scores unconditionally (line 213).  The call sits in no
try block, so if it raises, the run aborts with that error before the
chart is displayed (line 214) and before the download is offered
(line 222).  The result is the list of steps that were emitted, together
with the propagated error, if any. -/
def imagePageRun (faceScores : List (List ℚ)) :
    List UIStep × Option String :=
  let r := detect_and_annotate_scores faceScores
  let pre := [UIStep.showOriginal] ++
    (if r.2 then [UIStep.warnNoFaces] else []) ++ [UIStep.showAnnotated]
  match plot_confidence_chart r.1 with
  | Except.error e => (pre, some e)
  | Except.ok chart =>
    (pre ++ [UIStep.plotChart chart, UIStep.offerDownload], none)

/-- C6: on an image with zero detected faces the collected score sequence
is empty and the page still invokes the Aggregate Visualizer on it; the
visualizer fails explicitly — the mean of zero samples is a scalar NaN,
which the bar constructor rejects with a `ValueError` — so the run aborts
and no chart step is ever emitted: the system never silently plots a
chart from zero samples. -/
theorem empty_input_chart_fails_explicitly :
    plot_confidence_chart [] = Except.error "ValueError" ∧
    imagePageRun [] =
      ([UIStep.showOriginal, UIStep.warnNoFaces, UIStep.showAnnotated],
       some "ValueError") ∧
    (∀ chart, UIStep.plotChart chart ∉ (imagePageRun []).1) := by
  refine ⟨rfl, rfl, ?_⟩
  intro chart
  simp [imagePageRun, detect_and_annotate_scores, plot_confidence_chart,
    npMeanAxis0]

/-- Exit reasons of the live camera loop. -/
inductive LiveExit
  | noFrame
  | stopped
  deriving DecidableEq, Repr

/-- Live camera loop `run_emotion_detection` (lines 432-462), abstracted
to its control flow.  Iteration `i` first reads a frame (`readOk i`; on a
failed read the loop breaks, lines 433-435), then detects, classifies,
annotates and displays — none of which affects control flow — and finally
checks the start/stop flag exactly once (`flag i`, the flag value observed
at the end of iteration `i`; on false the loop breaks, lines 461-462).
`fuel` bounds the number of iterations so the model is total; `none`
means the loop was still running after `fuel` iterations. -/
def liveLoop (readOk flag : ℕ → Bool) : ℕ → ℕ → Option (ℕ × LiveExit)
  | 0, _ => none
  | fuel + 1, i =>
    if readOk i = false then some (i, LiveExit.noFrame)
    else if flag i = false then some (i, LiveExit.stopped)
    else liveLoop readOk flag fuel (i + 1)

/-- Soundness of the live-loop exits: if the loop stops at iteration `k`,
every earlier iteration read a frame and saw the flag up, and the exit was
either a failed read at `k` or the flag observed down at `k`. -/
theorem liveLoop_exit_sound (readOk flag : ℕ → Bool) :
    ∀ (fuel i k : ℕ) (r : LiveExit),
    liveLoop readOk flag fuel i = some (k, r) →
    i ≤ k ∧
    (∀ j, i ≤ j → j < k → readOk j = true ∧ flag j = true) ∧
    ((r = LiveExit.noFrame ∧ readOk k = false) ∨
     (r = LiveExit.stopped ∧ readOk k = true ∧ flag k = false)) := by
  intro fuel
  induction fuel with
  | zero => intro i k r h; simp [liveLoop] at h
  | succ n ih =>
    intro i k r h
    by_cases hr : readOk i = false
    · simp only [liveLoop, hr, if_pos, Option.some.injEq, Prod.mk.injEq] at h
      obtain ⟨rfl, rfl⟩ := h
      exact ⟨le_refl i, fun j h1 h2 => absurd (lt_of_le_of_lt h1 h2)
        (lt_irrefl i), Or.inl ⟨rfl, hr⟩⟩
    · have hr' : readOk i = true := by
        cases hcase : readOk i
        · exact absurd hcase hr
        · rfl
      by_cases hf : flag i = false
      · simp only [liveLoop, hr, hf, if_pos, if_neg, not_false_iff,
          Option.some.injEq, Prod.mk.injEq] at h
        obtain ⟨rfl, rfl⟩ := h
        exact ⟨le_refl i, fun j h1 h2 => absurd (lt_of_le_of_lt h1 h2)
          (lt_irrefl i), Or.inr ⟨rfl, hr', hf⟩⟩
      · have hf' : flag i = true := by
          cases hcase : flag i
          · exact absurd hcase hf
          · rfl
        simp only [liveLoop, hr, hf, if_neg, not_false_iff] at h
        obtain ⟨hik, hmid, hexit⟩ := ih (i + 1) k r h
        refine ⟨le_trans (Nat.le_succ i) hik, ?_, hexit⟩
        intro j h1 h2
        rcases Nat.eq_or_lt_of_le h1 with heq | hlt
        · rw [← heq]; exact ⟨hr', hf'⟩
        · exact hmid j hlt h2

/-- One-iteration cancellation latency: if every iteration up to `k` reads
a frame, the flag stays up before `k` and is observed down at the check of
iteration `k`, the loop exits at iteration `k` with reason `stopped` —
after the flag goes down, at most the one in-flight frame is processed. -/
theorem liveLoop_stops_at_flag (readOk flag : ℕ → Bool) :
    ∀ (fuel i k : ℕ),
    i ≤ k → k < i + fuel →
    (∀ j, i ≤ j → j ≤ k → readOk j = true) →
    (∀ j, i ≤ j → j < k → flag j = true) →
    flag k = false →
    liveLoop readOk flag fuel i = some (k, LiveExit.stopped) := by
  intro fuel
  induction fuel with
  | zero => intro i k h1 h2 _ _ _; omega
  | succ n ih =>
    intro i k hik hlt hread hflag hfk
    have hri : readOk i = true := hread i le_rfl hik
    by_cases hk : i = k
    · subst hk
      simp [liveLoop, hri, hfk]
    · have hik1 : i + 1 ≤ k := by omega
      have hfi : flag i = true := hflag i le_rfl (by omega)
      simp only [liveLoop, hri, hfi]
      rw [if_neg (by simp), if_neg (by simp)]
      exact ih (i + 1) k hik1 (by omega)
        (fun j hj1 hj2 => hread j (by omega) hj2)
        (fun j hj1 hj2 => hflag j (by omega) hj2) hfk

/-- C8: the live loop terminates exactly on a failed frame read or on the
stop flag being observed false at the once-per-iteration check: whenever
the loop run exits at iteration `k`, every earlier iteration had a frame
and the flag up, and the exit reason records which of the two conditions
fired at `k`; conversely, if the flag is down at the check of iteration
`k` (all reads succeeding and the flag up before), the loop exits at
iteration `k` itself — at most the one in-flight frame is processed after
the flag goes down. -/
theorem live_loop_stops_on_toggle_or_no_frame (readOk flag : ℕ → Bool)
    (fuel k : ℕ) (r : LiveExit) :
    (liveLoop readOk flag fuel 0 = some (k, r) →
      (∀ j, j < k → readOk j = true ∧ flag j = true) ∧
      ((r = LiveExit.noFrame ∧ readOk k = false) ∨
       (r = LiveExit.stopped ∧ readOk k = true ∧ flag k = false))) ∧
    ((∀ j, j ≤ k → readOk j = true) → (∀ j, j < k → flag j = true) →
      flag k = false → k < fuel →
      liveLoop readOk flag fuel 0 = some (k, LiveExit.stopped)) := by
  constructor
  · intro h
    obtain ⟨-, h2, h3⟩ := liveLoop_exit_sound readOk flag fuel 0 k r h
    exact ⟨fun j hj => h2 j (Nat.zero_le j) hj, h3⟩
  · intro hread hflag hfk hfuel
    exact liveLoop_stops_at_flag readOk flag fuel 0 k (Nat.zero_le k)
      (by omega) (fun j _ hj => hread j hj) (fun j _ hj => hflag j hj) hfk

/-- Witness for C8: a camera that always yields frames and a flag toggled
off during iteration 2 make the loop exit at iteration 2 with reason
`stopped`. -/
theorem live_loop_stops_witness :
    liveLoop (fun _ => true) (fun i => decide (i < 2)) 5 0 =
      some (2, LiveExit.stopped) :=
  (live_loop_stops_on_toggle_or_no_frame (fun _ => true)
      (fun i => decide (i < 2)) 5 2 LiveExit.stopped).2
    (fun j _ => rfl)
    (fun j hj => by simpa using hj)
    (by decide) (by omega)

/-- An RGB pixel value. -/
def Color := ℤ × ℤ × ℤ

/-- The color passed to `cv2.rectangle` in the video loop (line 340). -/
def green : Color := (0, 255, 0)

/-- Whether the pixel at `(row, col)` lies on the one-pixel border drawn
by `cv2.rectangle` between corners `(x, y)` and `(x + w, y + h)` with
thickness 1. -/
def onRectBorder (x y w h row col : ℤ) : Bool :=
  (decide (x ≤ col) && decide (col ≤ x + w) &&
   decide (y ≤ row) && decide (row ≤ y + h)) &&
  (decide (col = x) || decide (col = x + w) ||
   decide (row = y) || decide (row = y + h))

/-- Model of the in-place `cv2.rectangle(frame, (x, y), (x+w, y+h),
(0,255,0), 1)` call of line 340, as a new pixel accessor over an
unbounded grid: border pixels take the drawn color, all others keep the
underlying frame value. -/
def drawRect (f : ℤ → ℤ → Color) (x y w h : ℤ) : ℤ → ℤ → Color :=
  fun row col => if onRectBorder x y w h row col then green else f row col

/-- The numpy crop `frame[y:y+h, x:x+w]` of line 343 as a pixel accessor:
ROI-relative coordinates are offset by the box corner. -/
def cropAt (f : ℤ → ℤ → Color) (x y : ℤ) : ℤ → ℤ → Color :=
  fun row col => f (y + row) (x + col)

/-- Per-face order of operations of the video loop (lines 340 and 343):
the rectangle is drawn onto the frame first, and the ROI handed to
`predict_emotion` is then cropped from that same, already-mutated frame. -/
def videoFaceRoi (f : ℤ → ℤ → Color) (x y w h : ℤ) : ℤ → ℤ → Color :=
  cropAt (drawRect f x y w h) x y

/-- A constant gray test frame. -/
def grayFrame : ℤ → ℤ → Color := fun _ _ => (9, 9, 9)

/-- C9: for every frame and every box of positive extent, the ROI the
video loop passes to the classifier contains the drawn rectangle color at
its top-left pixel `(0, 0)` — a position inside the box extent — because
the rectangle is drawn before the crop is taken; wherever the original
frame was not already green there, the ROI therefore differs from the
crop of the unannotated frame. -/
theorem annotation_leaks_into_roi (f : ℤ → ℤ → Color) (x y w h : ℤ)
    (hw : 1 ≤ w) (hh : 1 ≤ h) :
    videoFaceRoi f x y w h 0 0 = green ∧
    cropAt f x y 0 0 = f y x ∧
    (f y x ≠ green → videoFaceRoi f x y w h 0 0 ≠ cropAt f x y 0 0) := by
  have hb : onRectBorder x y w h y x = true := by
    simp [onRectBorder]
    omega
  refine ⟨?_, by simp [cropAt], ?_⟩
  · simp [videoFaceRoi, cropAt, drawRect, hb]
  · intro hne
    simp only [videoFaceRoi, cropAt, drawRect, add_zero, hb, if_true,
      ite_true]
    exact fun hgreen => hne hgreen.symm

/-- Witness for C9 on the constant gray frame and the box
`(x, y, w, h) = (2, 3, 4, 5)`. -/
theorem annotation_leaks_into_roi_witness :
    videoFaceRoi grayFrame 2 3 4 5 0 0 = green ∧
    cropAt grayFrame 2 3 0 0 = grayFrame 3 2 ∧
    (grayFrame 3 2 ≠ green →
      videoFaceRoi grayFrame 2 3 4 5 0 0 ≠ cropAt grayFrame 2 3 0 0) :=
  annotation_leaks_into_roi grayFrame 2 3 4 5 (by decide) (by decide)

end EmotionFusion
